import Mathlib

/-!
Verification of the web-limo request-validation engine (`src/validator.ts`)
and route-resolution pipeline (`Application` in its current form, the file
importing `./validator`).

Modelling conventions for the shallow embedding:

* JavaScript values are the inductive `Value`.  Numbers are modelled as
  integers (`Int`): IEEE-754 fractional behaviour (the `digits`,
  `roundingFn` and `integer` options of a number rule, which are identities
  on integers) is outside the embedding, as is `NaN`.
* A rule's `default` may be a literal or a function of the raw value
  (`DefaultSpec`); `parse` is a post-transform function.  In the source
  these callbacks also receive the rule itself as a second argument; that
  argument is informationally redundant (it is always the enclosing rule)
  and is dropped here because an inductive type cannot contain functions
  consuming itself.
* A `RegExp` pattern is modelled as an arbitrary test predicate
  `String → Bool`; a string pattern is a substring test, as in the source.
* The `date` and `bigint` rule variants are not modelled: no claim under
  verification mentions them and date parsing is platform defined.
* String-to-number coercion (`+x`) is modelled for decimal integer
  literals; hexadecimal/fractional/exponent forms fall outside the integer
  value domain and map to "not a number".  Array-to-primitive coercion is
  likewise not modelled.
* JavaScript `===` on objects/arrays is reference identity; the embedding
  over-approximates it with structural equality (`valueBeq`), which is only
  used for membership tests on rule-provided constant lists.
-/

namespace WebLimo

/-- A JavaScript runtime value, as far as the validator observes it. -/
inductive Value where
  | null
  | undefined
  | bool (b : Bool)
  | num (n : Int)
  | str (s : String)
  | arr (elems : List Value)
  | obj (fields : List (String × Value))

mutual

/-- Structural model of JavaScript `===`/`includes` equality on values. -/
def valueBeq : Value → Value → Bool
  | .null, .null => true
  | .undefined, .undefined => true
  | .bool a, .bool b => a == b
  | .num a, .num b => a == b
  | .str a, .str b => a == b
  | .arr as, .arr bs => valueListBeq as bs
  | .obj as, .obj bs => valueFieldsBeq as bs
  | _, _ => false

/-- Elementwise equality of value lists. -/
def valueListBeq : List Value → List Value → Bool
  | [], [] => true
  | a :: as, b :: bs => valueBeq a b && valueListBeq as bs
  | _, _ => false

/-- Field-by-field (order-sensitive) equality of field lists. -/
def valueFieldsBeq : List (String × Value) → List (String × Value) → Bool
  | [], [] => true
  | (k, v) :: as, (l, w) :: bs => k == l && valueBeq v w && valueFieldsBeq as bs
  | _, _ => false

end

/-- Membership in a value list, as JavaScript `Array.prototype.includes`. -/
def valueListContains (vs : List Value) (x : Value) : Bool :=
  vs.any fun v => valueBeq v x

/-- First field with the given name, as JavaScript property lookup. -/
def lookupField : List (String × Value) → String → Option Value
  | [], _ => none
  | (k, v) :: rest, key => if k == key then some v else lookupField rest key

/-- Array element addressed by a canonical index string (JS `a["3"]`). -/
def arrIndexGet (xs : List Value) (key : String) : Option Value :=
  match key.toNat? with
  | some i => if toString i == key then xs.get? i else none
  | none => none

/-- The index-key strings `Object.keys` yields for an array. -/
def idxKeys (xs : List Value) : List String :=
  (List.range xs.length).map toString

/-- `aKeys.filter(k => bKeys.includes(k)).length === aKeys.length`. -/
def keysSubset (as bs : List String) : Bool :=
  as.all fun k => bs.contains k

mutual

/-- `utils.isEqual`: deep structural equality with JS object semantics —
field order does not matter, and an array is comparable with an object
through its index keys.  (The `Date` and `NaN` branches of the source have
no counterpart in the value domain; the `checkPrototype` mode is never
enabled by the validator.) -/
def isEqual : WebLimo.Value → WebLimo.Value → Bool
  | .arr xs, .arr ys => xs.length == ys.length && isEqualElems xs ys
  | .arr xs, .obj fb =>
      xs.length == fb.length && keysSubset (idxKeys xs) (fb.map Prod.fst)
        && isEqualArrObj 0 xs fb
  | .obj fa, .arr ys =>
      fa.length == ys.length && keysSubset (fa.map Prod.fst) (idxKeys ys)
        && isEqualObjArr fa ys
  | .obj fa, .obj fb =>
      fa.length == fb.length && keysSubset (fa.map Prod.fst) (fb.map Prod.fst)
        && isEqualFieldsGo fa fb
  | a, b => WebLimo.valueBeq a b

/-- Pairwise deep equality of array elements. -/
def isEqualElems : List WebLimo.Value → List WebLimo.Value → Bool
  | [], [] => true
  | a :: as, b :: bs => isEqual a b && isEqualElems as bs
  | _, _ => false

/-- Deep equality of array elements against an object's index-keyed fields. -/
def isEqualArrObj : Nat → List WebLimo.Value → List (String × WebLimo.Value) → Bool
  | _, [], _ => true
  | i, x :: rest, fb =>
      (match lookupField fb (toString i) with
       | some w => isEqual x w
       | none => false)
      && isEqualArrObj (i + 1) rest fb

/-- Deep equality of an object's fields against an array's elements. -/
def isEqualObjArr : List (String × WebLimo.Value) → List WebLimo.Value → Bool
  | [], _ => true
  | (k, v) :: rest, ys =>
      (match arrIndexGet ys k with
       | some w => isEqual v w
       | none => false)
      && isEqualObjArr rest ys

/-- Deep equality of two objects' fields keyed by the first one's names. -/
def isEqualFieldsGo : List (String × WebLimo.Value) → List (String × WebLimo.Value) → Bool
  | [], _ => true
  | (k, v) :: rest, fb =>
      (match lookupField fb k with
       | some w => isEqual v w
       | none => false)
      && isEqualFieldsGo rest fb

end

/-- JavaScript truthiness of a value (`if (v)`). -/
def jsTruthy : Value → Bool
  | .null => false
  | .undefined => false
  | .bool b => b
  | .num n => n != 0
  | .str s => !s.isEmpty
  | .arr _ => true
  | .obj _ => true

/-- JavaScript `trim`/whitespace character class (WhiteSpace ∪ LineTerminator). -/
def isJsSpace (c : Char) : Bool :=
  c == ' ' || c == '\t' || c == '\n' || c == '\r'
  || c.toNat == 0xB || c.toNat == 0xC || c.toNat == 0xA0 || c.toNat == 0x1680
  || (decide (0x2000 ≤ c.toNat) && decide (c.toNat ≤ 0x200A))
  || c.toNat == 0x2028 || c.toNat == 0x2029 || c.toNat == 0x202F
  || c.toNat == 0x205F || c.toNat == 0x3000 || c.toNat == 0xFEFF

/-- JavaScript `String.prototype.trim`. -/
def jsTrim (s : String) : String :=
  String.mk (((s.data.dropWhile isJsSpace).reverse.dropWhile isJsSpace).reverse)

/-- Character class of `ESCAPE_REPLACE_ARGS[0]` (control characters). -/
def isEscape1Char (c : Char) : Bool :=
  decide (c.toNat ≤ 0x8)
  || (decide (0xB ≤ c.toNat) && decide (c.toNat ≤ 0x1F))
  || (decide (0x7F ≤ c.toNat) && decide (c.toNat ≤ 0x9F))

/-- Character class of `ESCAPE_REPLACE_ARGS[1]` (invisible whitespace). -/
def isEscape2Char (c : Char) : Bool :=
  c == ' ' || c == '\t' || c.toNat == 0xA0
  || (decide (0x2000 ≤ c.toNat) && decide (c.toNat ≤ 0x200B))
  || c.toNat == 0x202F || c.toNat == 0x205F || c.toNat == 0x2060
  || c.toNat == 0x3000
  || (decide (0xFEFD ≤ c.toNat) && decide (c.toNat ≤ 0xFEFF))

/-- Delete every character matched by the first escape replacement. -/
def escapeStep1 (s : String) : String :=
  String.mk (s.data.filter fun c => !(isEscape1Char c))

/-- Collapse each run of second-class whitespace into one space. -/
def collapseRun : Bool → List Char → List Char
  | _, [] => []
  | inRun, c :: rest =>
      if isEscape2Char c then
        (if inRun then [] else [' ']) ++ collapseRun true rest
      else
        c :: collapseRun false rest

/-- The second escape replacement (`/[ ...]+/g` → a single space). -/
def escapeStep2 (s : String) : String := String.mk (collapseRun false s.data)

/-- Does `needle` start the character list? -/
def listStarts : List Char → List Char → Bool
  | [], _ => true
  | _ :: _, [] => false
  | a :: as, b :: bs => a == b && listStarts as bs

/-- Substring occurrence test on character lists. -/
def charsIncludes (needle : List Char) : List Char → Bool
  | [] => needle.isEmpty
  | c :: rest => listStarts needle (c :: rest) || charsIncludes needle rest

/-- JavaScript `String.prototype.includes`. -/
def strIncludes (hay needle : String) : Bool := charsIncludes needle.data hay.data

/-- JavaScript string-to-number coercion, restricted to decimal integers. -/
def jsStrToNumber (s : String) : Option Int :=
  let t := jsTrim s
  if t.isEmpty then some 0
  else if t.front == '+' then (t.drop 1).toInt?
  else t.toInt?

/-- JavaScript number coercion `+x` combined with the `isFinite` test:
`none` stands for a non-finite result. -/
def jsToNumber : Value → Option Int
  | .null => some 0
  | .undefined => none
  | .bool b => some (if b then 1 else 0)
  | .num n => some n
  | .str s => jsStrToNumber s
  | .arr _ => none
  | .obj _ => none

/-- A rule's `default`: a literal value or a function of the raw input. -/
inductive DefaultSpec where
  | val : Value → DefaultSpec
  | fn : (Value → Value) → DefaultSpec

/-- Evaluate a `default` spec against the raw input
(`typeof rule.default === 'function' ? rule.default(x, rule) : rule.default`). -/
def computeDefault : DefaultSpec → Value → Value
  | .val v, _ => v
  | .fn f, x => f x

/-- The `default` / `optional` / `parse` modifiers carried by every rule. -/
structure CommonOpts where
  dflt : Option DefaultSpec := none
  optional : Bool := false
  parse : Option (Value → Value) := none

/-- `if (rule.parse) return rule.parse(x, rule); return x;` -/
def applyParse : Option (Value → Value) → Value → Value
  | some p, v => p v
  | none, v => v

/-- A string rule's `pattern`: substring (string) or test predicate (RegExp). -/
inductive Pattern where
  | substring : String → Pattern
  | regex : (String → Bool) → Pattern

mutual

/-- The tagged rule variants of `src/validator.ts` (see the header note on
the omitted `date`/`bigint` variants and integer-vacuous number options). -/
inductive PrimitiveRule where
  | boolean (truthy falsy : Option (List Value)) (c : CommonOpts)
  | number (min max : Option Int) (values : Option (List Int)) (c : CommonOpts)
  | string (trim : Bool) (escape : Nat) (length min max : Option Int)
      (values : Option (List String)) (pattern : Option Pattern) (c : CommonOpts)
  | array (length min max : Option Int) (nested : Option ValidationRule)
      (c : CommonOpts)
  | object (schema : Option (List (String × ValidationRule)))
      (nested : Option ValidationRule) (c : CommonOpts)

/-- A rule slot: a single (possibly null) rule or a list of alternatives. -/
inductive ValidationRule where
  | single : Option PrimitiveRule → ValidationRule
  | list : List (Option PrimitiveRule) → ValidationRule

end

/-- The `rule` payload of a `ValidationError`: the single offending rule or
the whole alternative list. -/
inductive ErrRule where
  | prim : PrimitiveRule → ErrRule
  | alts : List (Option PrimitiveRule) → ErrRule

/-- The two error kinds `validate` can raise: a `ValidationError`
carrying `(propertyPath, value, rule)`, or the null-rule `TypeError`. -/
inductive VError where
  | validation (propertyPath : String) (value : Value) (rule : ErrRule)
  | typeError (msg : String)

/-- The common modifier record of a rule. -/
def PrimitiveRule.common : PrimitiveRule → CommonOpts
  | .boolean _ _ c => c
  | .number _ _ _ c => c
  | .string _ _ _ _ _ _ _ c => c
  | .array _ _ _ _ c => c
  | .object _ _ c => c

/-- `rule.type === 'string'`. -/
def PrimitiveRule.typeIsString : PrimitiveRule → Bool
  | .string .. => true
  | _ => false

/-- `x === null || x === undefined || (isQuery && x === '' && rule.type !== 'string')`. -/
def isAbsent (q : Bool) (r : PrimitiveRule) (x : Value) : Bool :=
  (match x with | .null => true | .undefined => true | _ => false)
  || (q && (match x with | .str s => s.isEmpty | _ => false) && !(r.typeIsString))

/-- Property read used by `Validator.object` (`x[key]`, `undefined` if missing). -/
def getProp (x : Value) (key : String) : Value :=
  match x with
  | .obj fs => (lookupField fs key).getD .undefined
  | .arr xs => (arrIndexGet xs key).getD .undefined
  | _ => .undefined

/-- `Object.keys(x)` as the nested-object branch of `Validator.object` uses it. -/
def jsKeys : Value → List String
  | .obj fs => fs.map Prod.fst
  | .arr xs => idxKeys xs
  | _ => []

namespace Validator

/-- `Validator.boolean`. -/
def booleanRun (truthy falsy : Option (List Value)) (r : PrimitiveRule)
    (x : Value) (path : String) (q : Bool) : Except VError Value :=
  if valueBeq x (.bool true) || (q && valueBeq x (.str "1"))
      || valueListContains (truthy.getD []) x then
    .ok (.bool true)
  else if valueBeq x (.bool false) || (q && valueBeq x (.str "0"))
      || valueListContains (falsy.getD []) x then
    .ok (.bool false)
  else
    .error (.validation path x (.prim r))

/-- `Validator.number` (the `digits`/`roundingFn`/`integer` handling is an
identity on the integer value domain; see the header note). -/
def numberRun (min max : Option Int) (values : Option (List Int))
    (r : PrimitiveRule) (x : Value) (path : String) : Except VError Value :=
  match jsToNumber x with
  | none => .error (.validation path x (.prim r))
  | some n =>
      if valueBeq x (.str "") then .error (.validation path x (.prim r))
      else if (match min with | some m => decide (n < m) | none => false)
          || (match max with | some m => decide (m < n) | none => false)
          || (match values with | some vl => !(vl.contains n) | none => false) then
        .error (.validation path x (.prim r))
      else
        .ok (.num n)

/-- `Validator.string` on an already-stringified input `s`: optionally trim,
optionally escape (for any positive level the source loop applies both
replacement steps), then test the constraints on the transformed string,
raising the error with the untransformed string as the offending value. -/
def stringRun (trim : Bool) (escape : Nat) (length min max : Option Int)
    (values : Option (List String)) (pattern : Option Pattern)
    (r : PrimitiveRule) (s : String) (path : String) : Except VError Value :=
  let str := if trim then jsTrim s else s
  let str := if 0 < escape then escapeStep2 (escapeStep1 str) else str
  if (match length with | some l => l != (str.length : Int) | none => false)
      || (match min with | some m => decide ((str.length : Int) < m) | none => false)
      || (match max with | some m => decide (m < (str.length : Int)) | none => false)
      || (match values with | some vl => !(vl.contains str) | none => false)
      || (match pattern with
          | some (.substring p) => !(strIncludes str p)
          | some (.regex t) => !(t str)
          | none => false) then
    .error (.validation path (.str s) (.prim r))
  else
    .ok (.str str)

mutual

/-- `Validator.validate`: alternative lists are tried left to right with
every failure swallowed; an exhausted list raises one aggregate error. -/
def validate (x : Value) (rule : ValidationRule) (path : String) (q : Bool) :
    Except VError Value :=
  match rule with
  | .list rs =>
      match tryAlts x rs path q with
      | some v => .ok v
      | none => .error (.validation path x (.alts rs))
  | .single r => resolve x r path q
termination_by (sizeOf rule, 0)

/-- The `for (const r of rule) { try ... catch {} }` loop. -/
def tryAlts (x : Value) (rs : List (Option PrimitiveRule)) (path : String)
    (q : Bool) : Option Value :=
  match rs with
  | [] => none
  | r :: rest =>
      match resolve x r path q with
      | .ok v => some v
      | .error _ => tryAlts x rest path q
termination_by (sizeOf rs, 0)

/-- `Validator.resolve`: null-rule guard, absent-value handling with
default/optional escape, deep-equal default short-circuit, then per-type
dispatch followed by `parse`. -/
def resolve (x : Value) (rule : Option PrimitiveRule) (path : String)
    (q : Bool) : Except VError Value :=
  match rule with
  | none => .error (.typeError "Rule is null or undefined")
  | some r =>
      if isAbsent q r x then
        match r.common.dflt with
        | some d => .ok (applyParse r.common.parse (computeDefault d x))
        | none =>
            if r.common.optional then .ok .undefined
            else .error (.validation path x (.prim r))
      else
        match r.common.dflt with
        | some d =>
            if isEqual x (computeDefault d x) then
              .ok (applyParse r.common.parse x)
            else
              (dispatch x r path q).map (applyParse r.common.parse)
        | none => (dispatch x r path q).map (applyParse r.common.parse)
termination_by (sizeOf rule, 0)

/-- `Validator[rule.type](x, rule, propertyPath, isQuery)`. -/
def dispatch (x : Value) (r : PrimitiveRule) (path : String) (q : Bool) :
    Except VError Value :=
  match r with
  | .boolean truthy falsy _ => booleanRun truthy falsy r x path q
  | .number mn mx vals _ => numberRun mn mx vals r x path
  | .string tr esc len mn mx vals pat _ =>
      match x with
      | .num n => stringRun tr esc len mn mx vals pat r (toString n) path
      | .str s => stringRun tr esc len mn mx vals pat r s path
      | _ => .error (.validation path x (.prim r))
  | .array len mn mx nested _ =>
      match x with
      | .arr xs =>
          if (match len with | some l => l != (xs.length : Int) | none => false)
              || (match mn with
                  | some m => decide ((xs.length : Int) < m) | none => false)
              || (match mx with
                  | some m => decide (m < (xs.length : Int)) | none => false) then
            .error (.validation path x (.prim r))
          else
            match nested with
            | some nr => (validateElems nr path q 0 xs).map Value.arr
            | none => .ok (.arr xs)
      | _ => .error (.validation path x (.prim r))
  | .object sch nested _ =>
      match x with
      | .obj _ | .arr _ =>
          match sch with
          | some entries => (objSchemaGo x path q entries).map Value.obj
          | none =>
              match nested with
              | some nr => (objNestedGo x nr path q (jsKeys x)).map Value.obj
              | none => .ok (.obj [])
      | _ => .error (.validation path x (.prim r))
termination_by (sizeOf r, 1)

/-- The per-element loop of `Validator.array`: validate `x[i]` at
`path[i]`, keep the result only when it is truthy, propagate errors. -/
def validateElems (nested : ValidationRule) (path : String) (q : Bool)
    (i : Nat) (xs : List Value) : Except VError (List Value) :=
  match xs with
  | [] => .ok []
  | x :: rest => do
      let v ← validate x nested (path ++ "[" ++ toString i ++ "]") q
      let out ← validateElems nested path q (i + 1) rest
      pure (if jsTruthy v then v :: out else out)
termination_by (sizeOf nested, xs.length + 1)

/-- The schema branch of `Validator.object`: one output field per declared
schema entry, validated at `path.key`. -/
def objSchemaGo (x : Value) (path : String) (q : Bool)
    (entries : List (String × ValidationRule)) :
    Except VError (List (String × Value)) :=
  match entries with
  | [] => .ok []
  | (key, slot) :: rest => do
      let v ← validate (getProp x key) slot (path ++ "." ++ key) q
      let out ← objSchemaGo x path q rest
      pure ((key, v) :: out)
termination_by (sizeOf entries, 0)

/-- The nested branch of `Validator.object`: every own key of the input
validated against the single nested rule. -/
def objNestedGo (x : Value) (nested : ValidationRule) (path : String)
    (q : Bool) (keys : List String) : Except VError (List (String × Value)) :=
  match keys with
  | [] => .ok []
  | key :: rest => do
      let v ← validate (getProp x key) nested (path ++ "." ++ key) q
      let out ← objNestedGo x nested path q rest
      pure ((key, v) :: out)
termination_by (sizeOf nested, keys.length + 1)

end

end Validator

/-! ### Route table and request dispatch (`Application`)

The compiled location pattern of an endpoint is modelled as an abstract
matcher `String → Option (List String)`: `none` when the anchored regular
expression does not match the path, `some (full :: captures)` when it does
(JavaScript `match` yields the full match at index 0 followed by the
capture groups). -/

/-- The HTTP methods of the `HttpMethod` union type. -/
inductive HttpMethod where
  | GET | POST | PUT | DELETE | PATCH | OPTIONS | HEAD
deriving DecidableEq

/-- The literal string of an `HttpMethod`. -/
def HttpMethod.lit : HttpMethod → String
  | .GET => "GET"
  | .POST => "POST"
  | .PUT => "PUT"
  | .DELETE => "DELETE"
  | .PATCH => "PATCH"
  | .OPTIONS => "OPTIONS"
  | .HEAD => "HEAD"

/-- The slice of an `EndpointBuild` descriptor that route resolution and
route-table construction read. -/
structure Endpoint where
  method : HttpMethod
  locationTemplate : String
  location : String → Option (List String)

/-- `req.method === ep.method || (req.method === 'HEAD' && ep.method === 'GET')`. -/
def methodAccepts (reqMethod epMethod : HttpMethod) : Bool :=
  reqMethod == epMethod || (reqMethod == .HEAD && epMethod == .GET)

/-- The `this.endpoints.find(...)` scan of `requestHandler`: the predicate
demands a pattern match on the path and an acceptable method, so a
descriptor matching only the path is skipped and the scan continues. -/
def findEndpoint : List Endpoint → HttpMethod → String → Option (Endpoint × List String)
  | [], _, _ => none
  | ep :: rest, m, loc =>
      match ep.location loc with
      | some params =>
          if methodAccepts m ep.method then some (ep, params.drop 1)
          else findEndpoint rest m loc
      | none => findEndpoint rest m loc

/-- `(req.url || '').split('?', 2)[0]`: the path before the first `?`. -/
def splitLocation (url : String) : String :=
  String.mk (url.data.takeWhile fun c => c != '?')

/-- Outcome of the route-match step of `requestHandler`. -/
inductive RouteOutcome where
  | matched (ep : Endpoint) (params : List String)
  | notFound (statusCode : Nat)

/-- Route resolution: split off the query string, scan the route table, and
fail with the 404 `HttpException` when no descriptor is selected. -/
def routeRequest (eps : List Endpoint) (m : HttpMethod) (url : String) : RouteOutcome :=
  match findEndpoint eps m (splitLocation url) with
  | some (ep, params) => .matched ep params
  | none => .notFound 404

/-- The `${ep.method} ${ep.locationTemplate}` key of `loadEndpoints`. -/
def endpointKey (ep : Endpoint) : String :=
  ep.method.lit ++ " " ++ ep.locationTemplate

/-- The `indexOf(lt) !== i` duplicate scan of `loadEndpoints`: the first
key already seen earlier in the list, if any. -/
def findDup (seen : List String) : List String → Option String
  | [] => none
  | lt :: rest => if seen.contains lt then some lt else findDup (seen ++ [lt]) rest

/-- `Application.loadEndpoints`: throw on a duplicate
`method locationTemplate` key, otherwise keep every endpoint. -/
def loadEndpoints (eps : List Endpoint) : Except String (List Endpoint) :=
  match findDup [] (eps.map endpointKey) with
  | some lt => .error ("Some endpoints have the same location: " ++ lt)
  | none => .ok eps

/-- The `Application` constructor: `loadEndpoints` runs first and a throw
aborts construction, so `createServer` (the `Bool` flag) runs only when
every endpoint key is distinct. -/
def applicationConstruct (eps : List Endpoint) : Except String (List Endpoint × Bool) :=
  match loadEndpoints eps with
  | .ok table => .ok (table, true)
  | .error e => .error e

/-! ### Specification-level reformulations

Independent definitions used to state properties of the code above. -/

/-- The value of the first successful computation in a list, if any. -/
def firstOk : List (Except VError Value) → Option Value
  | [] => none
  | .ok v :: _ => some v
  | .error _ :: rest => firstOk rest

/-- Per-element validation results of an array, in index order, without the
truthiness filter: the elementwise behaviour an element-transparent array
validation would exhibit. -/
def elemResults (nested : ValidationRule) (path : String) (q : Bool) :
    Nat → List Value → Except VError (List Value)
  | _, [] => .ok []
  | i, x :: rest => do
      let v ← Validator.validate x nested (path ++ "[" ++ toString i ++ "]") q
      let vs ← elemResults nested path q (i + 1) rest
      pure (v :: vs)

/-- The trim/escape transformation a string rule performs. -/
def stringTransform (trim : Bool) (escape : Nat) (s : String) : String :=
  let t := if trim then jsTrim s else s
  if 0 < escape then escapeStep2 (escapeStep1 t) else t

/-- Does a string violate the declarative constraints of a string rule? -/
def stringChecksFail (length min max : Option Int) (values : Option (List String))
    (pattern : Option Pattern) (str : String) : Bool :=
  (match length with | some l => l != (str.length : Int) | none => false)
  || (match min with | some m => decide ((str.length : Int) < m) | none => false)
  || (match max with | some m => decide (m < (str.length : Int)) | none => false)
  || (match values with | some vl => !(vl.contains str) | none => false)
  || (match pattern with
      | some (.substring p) => !(strIncludes str p)
      | some (.regex t) => !(t str)
      | none => false)

/-- Does an array of `n` elements violate the bounds of an array rule? -/
def arrayBoundsFail (length min max : Option Int) (n : Nat) : Bool :=
  (match length with | some l => l != (n : Int) | none => false)
  || (match min with | some m => decide ((n : Int) < m) | none => false)
  || (match max with | some m => decide (m < (n : Int)) | none => false)

/-- Route matching as the specification words it: the first descriptor for
which the path matches **and** the method is acceptable. -/
def specRouteMatch (eps : List Endpoint) (m : HttpMethod) (loc : String) :
    Option (Endpoint × List String) :=
  match eps.find? (fun ep => (ep.location loc).isSome && methodAccepts m ep.method) with
  | some ep => some (ep, ((ep.location loc).getD []).drop 1)
  | none => none

/-! ### Shared lemmas -/

/-- Mapping the identity post-transform over a result changes nothing. -/
lemma except_map_applyParse_none (e : Except VError Value) :
    e.map (applyParse none) = e := by
  cases e <;> rfl

/-- The alternative loop returns the first successful resolution. -/
lemma tryAlts_eq_firstOk (x : Value) (rs : List (Option PrimitiveRule))
    (path : String) (q : Bool) :
    Validator.tryAlts x rs path q
      = firstOk (rs.map fun r => Validator.resolve x r path q) := by
  induction rs with
  | nil => simp [Validator.tryAlts, firstOk]
  | cons r rest ih =>
      cases h : Validator.resolve x r path q <;>
        simp [Validator.tryAlts, firstOk, h, ih]

/-- A list of failures has no first success. -/
lemma firstOk_replicate_error (n : Nat) (e : VError) :
    firstOk (List.replicate n (.error e)) = none := by
  induction n with
  | zero => simp [firstOk]
  | succ k ih => simp [List.replicate_succ, firstOk, ih]

/-- The element loop of `Validator.array` computes the per-element results
and keeps the truthy ones. -/
lemma validateElems_eq_filter (nested : ValidationRule) (path : String)
    (q : Bool) (i : Nat) (xs : List Value) :
    Validator.validateElems nested path q i xs
      = (elemResults nested path q i xs).map (List.filter jsTruthy) := by
  induction xs generalizing i with
  | nil => simp [Validator.validateElems, elemResults, Except.map]
  | cons x rest ih =>
      cases hv : Validator.validate x nested (path ++ "[" ++ toString i ++ "]") q with
      | error e =>
          simp [Validator.validateElems, elemResults, hv, Except.map, Except.bind, bind]
      | ok v =>
          cases hr : elemResults nested path q (i + 1) rest with
          | error e =>
              simp [Validator.validateElems, elemResults, hv, hr, ih,
                Except.map, Except.bind, bind]
          | ok vs =>
              simp [Validator.validateElems, elemResults, hv, hr, ih,
                Except.map, Except.bind, bind, pure, Except.pure, List.filter]
              cases htv : jsTruthy v <;> simp [htv]

/-- A successful schema walk produces exactly the schema's field names. -/
lemma objSchemaGo_keys (x : Value) (path : String) (q : Bool) :
    ∀ (entries : List (String × ValidationRule)) (out : List (String × Value)),
      Validator.objSchemaGo x path q entries = .ok out →
      out.map Prod.fst = entries.map Prod.fst := by
  intro entries
  induction entries with
  | nil =>
      intro out h
      simp [Validator.objSchemaGo] at h
      simp [← h]
  | cons e rest ih =>
      intro out h
      obtain ⟨key, slot⟩ := e
      cases hv : Validator.validate (getProp x key) slot (path ++ "." ++ key) q with
      | error err => simp [Validator.objSchemaGo, hv, Except.bind, bind] at h
      | ok v =>
          cases hr : Validator.objSchemaGo x path q rest with
          | error err =>
              simp [Validator.objSchemaGo, hv, hr, Except.bind, bind] at h
          | ok outRest =>
              simp [Validator.objSchemaGo, hv, hr, Except.bind, bind, pure, Except.pure] at h
              simp [← h, ih outRest hr]

/-- A name outside a field list's names is not found by lookup. -/
lemma lookupField_eq_none (l : List (String × Value)) (k : String)
    (h : k ∉ l.map Prod.fst) : lookupField l k = none := by
  induction l with
  | nil => rfl
  | cons p rest ih =>
      obtain ⟨key, v⟩ := p
      simp only [List.map_cons, List.mem_cons, not_or] at h
      have hk : (key == k) = false := by
        rw [beq_eq_false_iff_ne]
        exact fun e => h.1 e.symm
      simp [lookupField, hk]
      exact ih h.2

/-- The route scan is the first-path-and-method match of the specification. -/
lemma findEndpoint_eq_specRouteMatch (eps : List Endpoint) (m : HttpMethod)
    (loc : String) : findEndpoint eps m loc = specRouteMatch eps m loc := by
  induction eps with
  | nil => simp [findEndpoint, specRouteMatch]
  | cons ep rest ih =>
      cases hl : ep.location loc with
      | none => simp [findEndpoint, specRouteMatch, List.find?, hl, ih]
      | some params =>
          cases hm : methodAccepts m ep.method <;>
            simp [findEndpoint, specRouteMatch, List.find?, hl, hm, ih]

/-- An append-with-separator splits uniquely when neither left part
contains the separator. -/
lemma sep_append_inj (c : Char) :
    ∀ (l1 l2 r1 r2 : List Char), c ∉ l1 → c ∉ l2 →
      l1 ++ c :: r1 = l2 ++ c :: r2 → l1 = l2 ∧ r1 = r2 := by
  intro l1
  induction l1 with
  | nil =>
      intro l2 r1 r2 _ h2 heq
      cases l2 with
      | nil => simpa using heq
      | cons b bs =>
          simp at heq
          exact absurd (heq.1 ▸ List.mem_cons_self b bs) (heq.1 ▸ h2)
  | cons a as ih =>
      intro l2 r1 r2 h1 h2 heq
      cases l2 with
      | nil =>
          simp at heq
          exact absurd (heq.1 ▸ List.mem_cons_self a as) (heq.1 ▸ h1)
      | cons b bs =>
          simp at heq
          obtain ⟨hab, htail⟩ := heq
          have h1' : c ∉ as := fun hc => h1 (List.mem_cons_of_mem a hc)
          have h2' : c ∉ bs := fun hc => h2 (List.mem_cons_of_mem b hc)
          obtain ⟨he1, he2⟩ := ih bs r1 r2 h1' h2' htail
          exact ⟨by simp [hab, he1], he2⟩

/-- No HTTP method literal contains a space. -/
lemma method_lit_no_space (m : HttpMethod) : ' ' ∉ m.lit.data := by
  cases m <;> decide

/-- The method literal determines the method. -/
lemma method_lit_inj (m1 m2 : HttpMethod) (h : m1.lit = m2.lit) : m1 = m2 := by
  cases m1 <;> cases m2 <;> first | rfl | (exact absurd h (by decide))

/-- The `method locationTemplate` key determines the (method, template) pair. -/
lemma key_string_inj (p1 p2 : HttpMethod × String)
    (h : p1.1.lit ++ " " ++ p1.2 = p2.1.lit ++ " " ++ p2.2) : p1 = p2 := by
  obtain ⟨m1, t1⟩ := p1
  obtain ⟨m2, t2⟩ := p2
  have hdata : m1.lit.data ++ ' ' :: t1.data = m2.lit.data ++ ' ' :: t2.data := by
    have := congrArg String.data h
    simpa [String.data_append] using this
  obtain ⟨hm, ht⟩ :=
    sep_append_inj ' ' m1.lit.data m2.lit.data t1.data t2.data
      (method_lit_no_space m1) (method_lit_no_space m2) hdata
  have : m1 = m2 := method_lit_inj m1 m2 (String.ext hm)
  simp [this, String.ext ht]

/-- The duplicate scan succeeds exactly on a duplicate-free list whose
entries were not seen before. -/
lemma findDup_eq_none_iff :
    ∀ (lts seen : List String),
      findDup seen lts = none ↔ ((∀ a ∈ lts, a ∉ seen) ∧ lts.Nodup) := by
  intro lts
  induction lts with
  | nil => simp [findDup]
  | cons lt rest ih =>
      intro seen
      by_cases hmem : lt ∈ seen
      · have hstep : findDup seen (lt :: rest) = some lt := by
          simp [findDup, hmem]
        rw [hstep]
        simp only [List.forall_mem_cons]
        constructor
        · intro h
          exact Option.noConfusion h
        · rintro ⟨⟨hlt, _⟩, _⟩
          exact absurd hmem hlt
      · have hstep : findDup seen (lt :: rest) = findDup (seen ++ [lt]) rest := by
          simp [findDup, hmem]
        rw [hstep, ih (seen ++ [lt])]
        simp only [List.forall_mem_cons, List.nodup_cons, List.mem_append,
          List.mem_singleton, not_or]
        constructor
        · rintro ⟨hall, hnd⟩
          exact ⟨⟨hmem, fun a ha => (hall a ha).1⟩,
            fun hlt => (hall lt hlt).2 rfl, hnd⟩
        · rintro ⟨⟨_, hall⟩, hnotin, hnd⟩
          exact ⟨fun a ha => ⟨hall a ha, fun e => hnotin (e ▸ ha)⟩, hnd⟩

/-! ### Claim theorems -/

/-- C6: a value classified as absent (null/undefined, or the empty string in
lenient query mode for a non-string rule) resolves to the rule's default put
through `parse` when a default exists, to `undefined` when the rule is
optional without a default, and otherwise to a `ValidationError` carrying
exactly the property path passed to the call. -/
theorem absent_value_resolution (r : PrimitiveRule) (x : Value) (path : String)
    (q : Bool) (h : isAbsent q r x = true) :
    Validator.validate x (.single (some r)) path q =
      match r.common.dflt with
      | some d => .ok (applyParse r.common.parse (computeDefault d x))
      | none =>
          if r.common.optional then .ok .undefined
          else .error (.validation path x (.prim r)) := by
  cases hd : r.common.dflt <;>
    simp [Validator.validate, Validator.resolve, h, hd]

/-- Witness for C6: a null value against a number rule with default `5` at
path `"q.p"` yields the default; the same rule without a default but
optional yields `undefined`; without either it fails at path `"q.p"`. -/
theorem absent_value_resolution_witness :
    Validator.validate .null
        (.single (some (.number none none none
          { dflt := some (.val (.num 5)), optional := false, parse := none })))
        "q.p" false = .ok (.num 5)
    ∧ Validator.validate .null
        (.single (some (.number none none none
          { dflt := none, optional := true, parse := none })))
        "q.p" false = .ok .undefined
    ∧ Validator.validate .null
        (.single (some (.number none none none
          { dflt := none, optional := false, parse := none })))
        "q.p" false
      = .error (.validation "q.p" .null
          (.prim (.number none none none
            { dflt := none, optional := false, parse := none }))) :=
  ⟨absent_value_resolution _ _ _ _ rfl,
   absent_value_resolution _ _ _ _ rfl,
   absent_value_resolution _ _ _ _ rfl⟩

/-- C7: a rule-slot that is a list of alternatives is evaluated left to
right; the first successful alternative's result is returned, and if all
fail a single `ValidationError` is raised whose `rule` is the whole list
and whose `value` is the original input. -/
theorem alternatives_first_success (x : Value) (rs : List (Option PrimitiveRule))
    (path : String) (q : Bool) :
    Validator.validate x (.list rs) path q =
      match firstOk (rs.map fun r => Validator.resolve x r path q) with
      | some v => .ok v
      | none => .error (.validation path x (.alts rs)) := by
  simp [Validator.validate, tryAlts_eq_firstOk]

/-- C10: inside an alternative list a null rule is swallowed like any other
failed alternative (its `TypeError` is caught), so an all-null list ends in
the aggregate `ValidationError`; a null single rule, by contrast, surfaces
the `TypeError`. -/
theorem null_rule_alternatives (x : Value) (rs : List (Option PrimitiveRule))
    (path : String) (q : Bool) (n : Nat) :
    Validator.validate x (.single none) path q
        = .error (.typeError "Rule is null or undefined")
    ∧ Validator.resolve x none path q
        = .error (.typeError "Rule is null or undefined")
    ∧ firstOk ((none :: rs).map fun r => Validator.resolve x r path q)
        = firstOk (rs.map fun r => Validator.resolve x r path q)
    ∧ Validator.validate x (.list (List.replicate n none)) path q
        = .error (.validation path x (.alts (List.replicate n none))) := by
  refine ⟨by simp [Validator.validate, Validator.resolve],
    by simp [Validator.resolve],
    by simp [Validator.resolve, firstOk], ?_⟩
  simp [Validator.validate, tryAlts_eq_firstOk, List.map_replicate,
    Validator.resolve, firstOk_replicate_error]

/-- A string rule whose declared default `"ab"` is shorter than its own
minimum length 5. -/
def shortStringRule : PrimitiveRule :=
  .string false 0 none (some 5) none none none
    { dflt := some (.val (.str "ab")), optional := false, parse := none }

/-- C1 (amended): when a present input is deep-equal to the rule's computed
default, `validate` returns the input itself put through `parse` — skipping
the per-type coercion routine and all of its constraints. -/
theorem default_short_circuit_returns_input (r : PrimitiveRule) (d : DefaultSpec)
    (x : Value) (path : String) (q : Bool)
    (hd : r.common.dflt = some d)
    (habs : isAbsent q r x = false)
    (heq : isEqual x (computeDefault d x) = true) :
    Validator.validate x (.single (some r)) path q
      = .ok (applyParse r.common.parse x) := by
  simp [Validator.validate, Validator.resolve, habs, hd, heq]

/-- Witness for C1: the too-short default string `"ab"` is accepted even
though the rule demands a minimum length of 5. -/
theorem default_short_circuit_returns_input_witness :
    Validator.validate (.str "ab") (.single (some shortStringRule)) "this" false
      = .ok (.str "ab") :=
  default_short_circuit_returns_input shortStringRule (.val (.str "ab"))
    (.str "ab") "this" false rfl rfl (by simp [isEqual, valueBeq, computeDefault])

/-- A `parse` transform that observes the field order of its argument. -/
def parseFirstKey : Value → Value
  | .obj ((k, _) :: _) => .str k
  | _ => .null

/-- An object rule whose default lists its fields in the opposite order of
the counterexample input and whose `parse` observes that order. -/
def reorderedDefaultRule : PrimitiveRule :=
  .object none none
    { dflt := some (.val (.obj [("b", .num 2), ("a", .num 1)])),
      optional := false, parse := some parseFirstKey }

/-- Counterexample to C1 as stated: the input `{a:1, b:2}` is deep-equal to
the default `{b:2, a:1}`, yet `validate` returns `parse` applied to the
*input* (first key `"a"`), not `parse` applied to the *default* (first key
`"b"`). -/
theorem default_short_circuit_parses_input_cex :
    isEqual (.obj [("a", .num 1), ("b", .num 2)])
        (.obj [("b", .num 2), ("a", .num 1)]) = true
    ∧ Validator.validate (.obj [("a", .num 1), ("b", .num 2)])
        (.single (some reorderedDefaultRule)) "this" false = .ok (.str "a")
    ∧ applyParse reorderedDefaultRule.common.parse
        (.obj [("b", .num 2), ("a", .num 1)]) = .str "b"
    ∧ Value.str "a" ≠ Value.str "b" := by
  refine ⟨?_, ?_, rfl, by simp⟩
  · simp [isEqual, isEqualFieldsGo, lookupField, keysSubset, valueBeq]
  · simp [Validator.validate, Validator.resolve, reorderedDefaultRule,
      PrimitiveRule.common, isAbsent, PrimitiveRule.typeIsString, computeDefault,
      isEqual, isEqualFieldsGo, lookupField, keysSubset, valueBeq, applyParse,
      parseFirstKey]

/-- C2: when an object rule with a schema accepts an object input, the
output object's field names are exactly the schema's declared names in
schema order; no input field outside the schema survives into the output. -/
theorem object_schema_whitelist (sch : List (String × ValidationRule))
    (nested : Option ValidationRule) (opt : Bool) (fs : List (String × Value))
    (path : String) (q : Bool) (out : Value)
    (h : Validator.validate (.obj fs)
        (.single (some (.object (some sch) nested
          { dflt := none, optional := opt, parse := none }))) path q = .ok out) :
    ∃ outFs : List (String × Value),
      out = .obj outFs
      ∧ outFs.map Prod.fst = sch.map Prod.fst
      ∧ ∀ k : String, k ∉ sch.map Prod.fst → lookupField outFs k = none := by
  simp [Validator.validate, Validator.resolve, Validator.dispatch, isAbsent,
    PrimitiveRule.common, PrimitiveRule.typeIsString, except_map_applyParse_none] at h
  cases hg : Validator.objSchemaGo (.obj fs) path q sch with
  | error e =>
      rw [hg] at h
      simp [Except.map] at h
  | ok l =>
      rw [hg] at h
      simp [Except.map] at h
      have hkeys := objSchemaGo_keys (.obj fs) path q sch l hg
      exact ⟨l, h.symm, hkeys,
        fun k hk => lookupField_eq_none l k (by rw [hkeys]; exact hk)⟩

/-- The schema of the specification's whitelist example:
`{name: string min 1, age: number optional}`. -/
def nameAgeSchema : List (String × ValidationRule) :=
  [("name", .single (some (.string false 0 none (some 1) none none none {}))),
   ("age", .single (some (.number none none none
     { dflt := none, optional := true, parse := none })))]

/-- Witness for C2: `{name:'Al', extra:'x'}` validates to an object holding
exactly the fields `name` and `age`; `extra` is absent. -/
theorem object_schema_whitelist_witness :
    ∃ outFs : List (String × Value),
      Value.obj [("name", Value.str "Al"), ("age", Value.undefined)] = .obj outFs
      ∧ outFs.map Prod.fst = nameAgeSchema.map Prod.fst
      ∧ ∀ k : String, k ∉ nameAgeSchema.map Prod.fst → lookupField outFs k = none :=
  object_schema_whitelist nameAgeSchema none false
    [("name", .str "Al"), ("extra", .str "x")] "this" false
    (.obj [("name", .str "Al"), ("age", .undefined)])
    (by simp [Validator.validate, Validator.resolve, Validator.dispatch,
      Validator.objSchemaGo, Validator.stringRun, Validator.numberRun,
      nameAgeSchema, getProp, lookupField, isAbsent, PrimitiveRule.common,
      PrimitiveRule.typeIsString, applyParse, Except.map, Except.bind, bind,
      pure, Except.pure, show ("Al".length : Int) = 2 from rfl])

/-- C3 (amended): a string rule applies the trim and escape transformations
first and then tests every declarative constraint against the transformed
string, returning the transformed string on success and raising the error
with the untransformed input on failure. -/
theorem string_constraints_after_transform (tr : Bool) (esc : Nat)
    (len mn mx : Option Int) (vals : Option (List String)) (pat : Option Pattern)
    (opt : Bool) (s path : String) (q : Bool) :
    Validator.validate (.str s)
        (.single (some (.string tr esc len mn mx vals pat
          { dflt := none, optional := opt, parse := none }))) path q
      = if stringChecksFail len mn mx vals pat (stringTransform tr esc s)
        then .error (.validation path (.str s)
          (.prim (.string tr esc len mn mx vals pat
            { dflt := none, optional := opt, parse := none })))
        else .ok (.str (stringTransform tr esc s)) := by
  simp [Validator.validate, Validator.resolve, Validator.dispatch,
    Validator.stringRun, isAbsent, PrimitiveRule.common,
    PrimitiveRule.typeIsString, except_map_applyParse_none,
    stringTransform, stringChecksFail]

/-- A string rule with `trim` and a minimum length of 2. -/
def trimMinRule : PrimitiveRule := .string true 0 none (some 2) none none none {}

/-- A string rule with `trim` and a maximum length of 1. -/
def trimMaxRule : PrimitiveRule := .string true 0 none none (some 1) none none {}

/-- Counterexample to C3 as stated: `" a "` (length 3) satisfies
`min 2` before trimming yet is rejected, and violates `max 1` before
trimming (but not after) yet is accepted — the constraints are therefore
checked after the trim, not before. -/
theorem string_constraint_order_cex :
    Validator.validate (.str " a ") (.single (some trimMinRule)) "this" false
      = .error (.validation "this" (.str " a ") (.prim trimMinRule))
    ∧ Validator.validate (.str " a ") (.single (some trimMaxRule)) "this" false
      = .ok (.str "a") := by
  constructor <;>
    simp [Validator.validate, Validator.resolve, Validator.dispatch,
      Validator.stringRun, trimMinRule, trimMaxRule, isAbsent,
      PrimitiveRule.common, PrimitiveRule.typeIsString, jsTrim, isJsSpace,
      applyParse, Except.map,
      show " a ".data = [' ', 'a', ' '] from rfl,
      show String.mk ['a'] = "a" from rfl,
      show ("a".length : Int) = 1 from rfl]

/-- C4 (amended): an array rule tests its `length`/`min`/`max` bounds
against the raw input array's length before any per-element validation, and
never re-tests them against the (possibly shorter) output array. -/
theorem array_bounds_on_raw_length (len mn mx : Option Int)
    (nested : Option ValidationRule) (opt : Bool) (xs : List Value)
    (path : String) (q : Bool) :
    Validator.validate (.arr xs)
        (.single (some (.array len mn mx nested
          { dflt := none, optional := opt, parse := none }))) path q
      = if arrayBoundsFail len mn mx xs.length
        then .error (.validation path (.arr xs)
          (.prim (.array len mn mx nested
            { dflt := none, optional := opt, parse := none })))
        else match nested with
          | some nr => (Validator.validateElems nr path q 0 xs).map Value.arr
          | none => .ok (.arr xs) := by
  rw [show Validator.validate (.arr xs)
        (.single (some (.array len mn mx nested
          { dflt := none, optional := opt, parse := none }))) path q
      = Validator.resolve (.arr xs)
          (some (.array len mn mx nested
            { dflt := none, optional := opt, parse := none })) path q from by
    simp [Validator.validate]]
  rw [Validator.resolve.eq_def]
  simp only [isAbsent, PrimitiveRule.common, PrimitiveRule.typeIsString,
    Bool.and_false, Bool.false_and, Bool.and_true, Bool.or_false, Bool.false_or]
  rw [Validator.dispatch.eq_def]
  simp [arrayBoundsFail, except_map_applyParse_none]

/-- An optional number rule, used as an array element rule that tolerates
absent elements by dropping them. -/
def optionalNumberElem : ValidationRule :=
  .single (some (.number none none none
    { dflt := none, optional := true, parse := none }))

/-- Array rule `max 2` over optional number elements. -/
def maxTwoArrayRule : PrimitiveRule :=
  .array none none (some 2) (some optionalNumberElem) {}

/-- Array rule `min 2` over optional number elements. -/
def minTwoArrayRule : PrimitiveRule :=
  .array none (some 2) none (some optionalNumberElem) {}

/-- Counterexample to C4 as stated: `[null,1,2]` has post-nesting length 2
(satisfying `max 2`) yet is rejected on its raw length 3, while `[null,1]`
has post-nesting length 1 (violating `min 2`) yet is accepted on its raw
length 2. -/
theorem array_bounds_raw_length_cex :
    Validator.validate (.arr [.null, .num 1, .num 2])
        (.single (some maxTwoArrayRule)) "this" false
      = .error (.validation "this" (.arr [.null, .num 1, .num 2])
          (.prim maxTwoArrayRule))
    ∧ Validator.validate (.arr [.null, .num 1])
        (.single (some minTwoArrayRule)) "this" false
      = .ok (.arr [.num 1]) := by
  constructor <;>
    simp [Validator.validate, Validator.resolve, Validator.dispatch,
      Validator.validateElems, Validator.numberRun, maxTwoArrayRule,
      minTwoArrayRule, optionalNumberElem, isAbsent, PrimitiveRule.common,
      PrimitiveRule.typeIsString, jsToNumber, valueBeq, jsTruthy, applyParse,
      Except.map, Except.bind, bind, pure, Except.pure]

/-- A plain number element rule. -/
def numberElem : ValidationRule := .single (some (.number none none none {}))

/-- C5 (amended): with a single nested rule and no bounds, the array rule
validates each element in index order (at `path[i]`), and the output keeps
exactly the elements whose validation result is truthy — any falsy result
(`undefined` from an optional escape, but also `0`, `false`, `''`, `null`)
is dropped. -/
theorem array_keeps_truthy_elements (nested : ValidationRule) (opt : Bool)
    (xs vs : List Value) (path : String) (q : Bool)
    (h : elemResults nested path q 0 xs = .ok vs) :
    Validator.validate (.arr xs)
        (.single (some (.array none none none (some nested)
          { dflt := none, optional := opt, parse := none }))) path q
      = .ok (.arr (vs.filter jsTruthy)) := by
  simp [Validator.validate, Validator.resolve, Validator.dispatch, isAbsent,
    PrimitiveRule.common, PrimitiveRule.typeIsString, validateElems_eq_filter,
    h, Except.map, applyParse]

/-- Witness for C5: `[1, 0]` against a number-element array rule — both
elements coerce successfully, and the falsy result `0` is dropped. -/
theorem array_keeps_truthy_elements_witness :
    Validator.validate (.arr [.num 1, .num 0])
        (.single (some (.array none none none (some numberElem)
          { dflt := none, optional := false, parse := none }))) "this" false
      = .ok (.arr [.num 1]) :=
  array_keeps_truthy_elements numberElem false [.num 1, .num 0]
    [.num 1, .num 0] "this" false
    (by simp [elemResults, Validator.validate, Validator.resolve,
      Validator.dispatch, Validator.numberRun, numberElem, isAbsent,
      PrimitiveRule.common, PrimitiveRule.typeIsString, jsToNumber, valueBeq,
      applyParse, Except.map, Except.bind, bind, pure, Except.pure])

/-- Counterexample to C5 as stated: the element `0` coerces successfully
under the nested number rule yet is dropped from the output, so the output
is `[]`, not `[0]`. -/
theorem array_drops_falsy_cex :
    Validator.validate (.arr [.num 0])
        (.single (some (.array none none none (some numberElem)
          { dflt := none, optional := false, parse := none }))) "this" false
      = .ok (.arr [])
    ∧ (Except.ok (Value.arr []) : Except VError Value) ≠ .ok (.arr [.num 0]) := by
  constructor
  · simp [Validator.validate, Validator.resolve, Validator.dispatch,
      Validator.validateElems, Validator.numberRun, numberElem, isAbsent,
      PrimitiveRule.common, PrimitiveRule.typeIsString, jsToNumber, valueBeq,
      jsTruthy, applyParse, Except.map, Except.bind, bind, pure, Except.pure]
  · simp

/-- C8 (amended): route resolution selects the first descriptor whose
pattern matches the path *and* whose method is acceptable (`HEAD` also
accepts a `GET` registration), binding the capture groups as params; a
descriptor whose pattern matches but whose method differs is skipped and
the scan continues, and only when no descriptor satisfies both conditions
does the request fail with 404. -/
theorem route_first_full_match (eps : List Endpoint) (m : HttpMethod)
    (url : String) :
    routeRequest eps m url =
      match specRouteMatch eps m (splitLocation url) with
      | some (ep, params) => .matched ep params
      | none => .notFound 404 := by
  simp [routeRequest, findEndpoint_eq_specRouteMatch]

/-- A compiled pattern accepting exactly the path `/a` with no captures. -/
def matchSlashA : String → Option (List String) :=
  fun s => if s = "/a" then some ["/a"] else none

/-- A `POST /a` endpoint. -/
def epPostA : Endpoint := ⟨.POST, "/a", matchSlashA⟩

/-- A `GET /a` endpoint. -/
def epGetA : Endpoint := ⟨.GET, "/a", matchSlashA⟩

/-- Counterexample to C8 as stated: for `GET /a` against
`[POST /a, GET /a]`, the first descriptor's pattern matches the path while
its method differs, and a later descriptor matches both — the request is
dispatched to the later descriptor, not failed with 404. -/
theorem route_method_mismatch_cex :
    (epPostA.location "/a").isSome = true
    ∧ methodAccepts .GET epPostA.method = false
    ∧ routeRequest [epPostA, epGetA] .GET "/a" = .matched epGetA [] := by
  refine ⟨rfl, rfl, ?_⟩
  have hsplit : splitLocation "/a" = "/a" := rfl
  simp [routeRequest, findEndpoint, hsplit, epPostA, epGetA,
    matchSlashA, methodAccepts]

/-- C9: `Application` construction fails (before the server is created)
exactly when two loaded endpoints share the same (method, location
template) pair; with all pairs distinct it succeeds and the route table
keeps every endpoint. -/
theorem duplicate_route_fails_construction (eps : List Endpoint) :
    ((eps.map fun ep => (ep.method, ep.locationTemplate)).Nodup →
      applicationConstruct eps = .ok (eps, true))
    ∧ (¬ (eps.map fun ep => (ep.method, ep.locationTemplate)).Nodup →
      ∃ msg, applicationConstruct eps = .error msg) := by
  have hcomp : eps.map endpointKey
      = (eps.map fun ep => (ep.method, ep.locationTemplate)).map
          (fun p : HttpMethod × String => p.1.lit ++ " " ++ p.2) := by
    rw [List.map_map]
    rfl
  have hinj : Function.Injective
      (fun p : HttpMethod × String => p.1.lit ++ " " ++ p.2) :=
    fun p1 p2 h => key_string_inj p1 p2 h
  have hnodup : (eps.map endpointKey).Nodup
      ↔ (eps.map fun ep => (ep.method, ep.locationTemplate)).Nodup := by
    rw [hcomp]
    exact ⟨fun h => h.of_map _, fun h => h.map hinj⟩
  constructor
  · intro hnd
    have hkeys : (eps.map endpointKey).Nodup := hnodup.mpr hnd
    have hdup : findDup [] (eps.map endpointKey) = none :=
      (findDup_eq_none_iff (eps.map endpointKey) []).mpr
        ⟨fun a _ h => (List.not_mem_nil a) h, hkeys⟩
    simp [applicationConstruct, loadEndpoints, hdup]
  · intro hnd
    have hkeys : ¬ (eps.map endpointKey).Nodup := fun h => hnd (hnodup.mp h)
    cases hdup : findDup [] (eps.map endpointKey) with
    | none =>
        exact absurd ((findDup_eq_none_iff (eps.map endpointKey) []).mp hdup).2
          hkeys
    | some lt =>
        exact ⟨"Some endpoints have the same location: " ++ lt,
          by simp [applicationConstruct, loadEndpoints, hdup]⟩

/-- A pattern matcher used only to populate witness route tables. -/
def matchNothing : String → Option (List String) := fun _ => none

/-- Witness for C9: distinct `GET /users` and `POST /users` registrations
construct successfully; two `GET /users` registrations abort construction. -/
theorem duplicate_route_fails_construction_witness :
    applicationConstruct [⟨.GET, "/users", matchNothing⟩, ⟨.POST, "/users", matchNothing⟩]
      = .ok ([⟨.GET, "/users", matchNothing⟩, ⟨.POST, "/users", matchNothing⟩], true)
    ∧ ∃ msg, applicationConstruct
        [⟨.GET, "/users", matchNothing⟩, ⟨.GET, "/users", matchNothing⟩]
      = .error msg :=
  ⟨(duplicate_route_fails_construction
      [⟨.GET, "/users", matchNothing⟩, ⟨.POST, "/users", matchNothing⟩]).1
    (by simp),
   (duplicate_route_fails_construction
      [⟨.GET, "/users", matchNothing⟩, ⟨.GET, "/users", matchNothing⟩]).2
    (by simp)⟩

end WebLimo
